import Mathlib

set_option maxHeartbeats 1000000
set_option maxRecDepth 8192
set_option linter.unusedVariables false

/-! # Verification of the commerce-kit CU analysis report generator

A shallow embedding of `program/generate_profiling.py`: the transaction
size estimator (`TransactionSizeAnalyzer`), the schema extractor, the
profiling-output collector (`ProfilingCollector._parse_profiling_output`),
the statistical aggregator (`StatisticalAnalyzer.analyze_operations`) and
the `main` driver, together with theorems settling the specified
properties.  Regex searches of the source are modelled as explicit
left-to-right scans with the same deterministic semantics on the inputs
the program handles; each modelling note is recorded on the definition it
concerns. -/

/-! ## Python string primitives -/

/-- Whitespace accepted by Python `str.strip()` and by the regex class
`\s` (the ASCII range; the program only handles ASCII text). -/
def pyWs (c : Char) : Bool :=
  c == ' ' || c == '\t' || c == '\n' || c == '\r' || c == '\x0b' || c == '\x0c'

/-- Python `str.strip()`: remove leading and trailing whitespace. -/
def pyStrip (l : List Char) : List Char :=
  ((l.dropWhile pyWs).reverse.dropWhile pyWs).reverse

/-- Python `str.endswith(c)` for a one-character suffix. -/
def endsWithChar (l : List Char) (c : Char) : Bool :=
  match l.getLast? with
  | some d => d == c
  | none => false

/-- Word characters of the regex class `\w` (ASCII). -/
def wordChar (c : Char) : Bool :=
  c.isAlpha || c.isDigit || c == '_'

/-- Numeric value of a decimal digit string, as Python `int(...)` reads it. -/
def digitsToNat (ds : List Char) : Nat :=
  ds.foldl (fun a c => 10 * a + (c.toNat - 48)) 0

/-- Python substring test `needle in hay`. -/
def containsSub (needle : List Char) : List Char → Bool
  | [] => needle.isEmpty
  | l@(_ :: t) => needle.isPrefixOf l || containsSub needle t

/-- ASCII lower-casing, Python `str.lower()`. -/
def lowerList (l : List Char) : List Char := l.map Char.toLower

/-- The opening brace character. -/
def lbrace : Char := Char.ofNat 123

/-- The closing brace character. -/
def rbrace : Char := Char.ofNat 125

/-- Python `str.split("\n")`: split at every newline, keeping empty parts. -/
def splitOnNl : List Char → List (List Char)
  | [] => [[]]
  | c :: rest =>
    if c = '\n' then [] :: splitOnNl rest
    else
      match splitOnNl rest with
      | h :: t => (c :: h) :: t
      | [] => [[c]]

/-! ## Transaction structure constants of the source -/

/-- Message header bytes. -/
def MESSAGE_HEADER_SIZE : Nat := 3

/-- Bytes per account public key. -/
def ACCOUNT_PUBKEY_SIZE : Nat := 32

/-- Compact-u16 length for small arrays. -/
def COMPACT_ARRAY_LENGTH : Nat := 1

/-- Recent blockhash bytes. -/
def RECENT_BLOCKHASH_SIZE : Nat := 32

/-- Compact-u16 for the instruction count. -/
def INSTRUCTIONS_LENGTH : Nat := 1

/-- Program id account index byte. -/
def PROGRAM_ID_INDEX : Nat := 1

/-- Compact-u16 for the account index list. -/
def ACCOUNT_INDEXES_LENGTH : Nat := 1

/-- Compact-u16 for the instruction data length. -/
def INSTRUCTION_DATA_LENGTH : Nat := 1

/-- Ed25519 signature bytes. -/
def SIGNATURE_SIZE : Nat := 64

/-- Solana's hard transaction size limit. -/
def MAX_TRANSACTION_SIZE : Nat := 1232

/-- Option discriminator byte. -/
def OPTION_DISCRIMINATOR_SIZE : Nat := 1

/-- Vec length-prefix bytes. -/
def VEC_LENGTH_SIZE : Nat := 4

/-! ## Size estimator (`TransactionSizeAnalyzer`) -/

/-- The `type_mappings` dictionary of `_calculate_type_size`, as an
association list in Python dict insertion order (which is also the
iteration order of the substring fallback loop). -/
def type_mappings : List (String × Nat) :=
  [(("u8"), 1), (("u16"), 2), (("u32"), 4), (("u64"), 8),
   (("i8"), 1), (("i16"), 2), (("i32"), 4), (("i64"), 8),
   (("bool"), 1),
   (("Pubkey"), 32), (("pubkey"), 32),
   (("FeeType"), 1), (("Status"), 1),
   (("PolicyData"), 101)]

/-- The array form recognized by `re.match(r'\[([^;]+);\s*(\d+)\]', type_str)`:
an opening bracket, a nonempty run of characters other than a semicolon
(the `[^;]+` group, whose maximal-munch expansion is forced because the
class excludes the following literal semicolon), the semicolon, optional
whitespace, a nonempty digit run and a closing bracket.  Trailing
characters are ignored, as `re.match` does not anchor the end of the
string.  Returns the element descriptor and the parsed length. -/
def parseArrayForm (s : List Char) : Option (List Char × Nat) :=
  match s with
  | [] => none
  | c :: rest =>
    if c = '[' then
      match rest.dropWhile (fun x => x != ';') with
      | [] => none
      | _ :: rest2 =>
        if (rest.takeWhile (fun x => x != ';')).isEmpty then none
        else if ((rest2.dropWhile pyWs).takeWhile Char.isDigit).isEmpty then none
        else
          match (rest2.dropWhile pyWs).dropWhile Char.isDigit with
          | [] => none
          | c2 :: _ =>
            if c2 = ']' then
              some (rest.takeWhile (fun x => x != ';'),
                digitsToNat ((rest2.dropWhile pyWs).takeWhile Char.isDigit))
            else none
    else none

/-- Fuel-indexed body of `TransactionSizeAnalyzer._calculate_type_size`.
The branches follow the source in order: strip, `Option<...>`, `Vec<...>`,
the fixed-array regex, the exact table lookup, then the case-insensitive
substring fallback over the table in insertion order.  `none` models the
unknown-type `ValueError`.  For arrays the source passes
`group(1).strip()` into the recursive call; since the callee strips its
argument as its first step, the redundant outer strip is dropped here. -/
def calc_type_size_fuel : Nat → List Char → Option Nat
  | 0, _ => none
  | fuel + 1, l =>
    if (("Option<").toList.isPrefixOf (pyStrip l) && endsWithChar (pyStrip l) '>') then
      (calc_type_size_fuel fuel (((pyStrip l).drop 7).dropLast)).map
        (fun w => OPTION_DISCRIMINATOR_SIZE + w)
    else if (("Vec<").toList.isPrefixOf (pyStrip l) && endsWithChar (pyStrip l) '>') then
      (calc_type_size_fuel fuel (((pyStrip l).drop 4).dropLast)).map
        (fun w => VEC_LENGTH_SIZE + 4 * w)
    else
      match parseArrayForm (pyStrip l) with
      | some (elem, n) => (calc_type_size_fuel fuel elem).map (fun w => n * w)
      | none =>
        match type_mappings.find? (fun p => p.1.toList == pyStrip l) with
        | some p => some p.2
        | none =>
          (type_mappings.find? (fun p =>
            containsSub (lowerList p.1.toList) (lowerList (pyStrip l)))).map (fun p => p.2)

/-- `TransactionSizeAnalyzer._calculate_type_size`. -/
def calculate_type_size (s : String) : Option Nat :=
  calc_type_size_fuel (s.toList.length + 1) s.toList

/-- `TransactionSizeAnalyzer._calculate_instruction_size`: the fixed
envelope model plus one discriminator byte and the per-argument widths,
capped at `MAX_TRANSACTION_SIZE - 50`.  `none` propagates the
unknown-type error of `_calculate_type_size`. -/
def calculate_instruction_size (account_count : Nat) (args : List (String × String)) :
    Option Nat :=
  (args.mapM (fun p => calculate_type_size p.2)).map (fun widths =>
    let signers := max 1 (min 3 ((account_count + 4) / 5))
    let size := signers * SIGNATURE_SIZE
      + MESSAGE_HEADER_SIZE + COMPACT_ARRAY_LENGTH
      + account_count * ACCOUNT_PUBKEY_SIZE + RECENT_BLOCKHASH_SIZE
      + INSTRUCTIONS_LENGTH + PROGRAM_ID_INDEX + ACCOUNT_INDEXES_LENGTH
      + account_count
    let instruction_data_size := 1 + widths.sum
    min (size + INSTRUCTION_DATA_LENGTH + instruction_data_size) (MAX_TRANSACTION_SIZE - 50))

/-! ## Schema extractor -/

/-- Python dict insert-or-update (`d[k] = v`): an existing key keeps its
position, a new key is appended. -/
def insertUpd {α : Type} : List (String × α) → String → α → List (String × α)
  | [], k, v => [(k, v)]
  | (k2, v2) :: rest, k, v =>
    if k2 = k then (k2, v) :: rest else (k2, v2) :: insertUpd rest k v

/-- One repetition of the annotation group `#\[account[^#]*?\n` of
`_count_accounts_for_instruction`: the literal marker, then characters up
to the first newline provided no other hash sign intervenes (the lazy
quantifier stops at the first newline, and the class `[^#]` cannot cross
a hash sign), then the newline.  Returns the consumed text and the rest. -/
def annotRep (l : List Char) : Option (List Char × List Char) :=
  if (("#[account").toList).isPrefixOf l then
    let rest := l.drop 9
    let mid := rest.takeWhile (fun c => c != '#' && c != '\n')
    match rest.drop mid.length with
    | c :: rest2 =>
      if c = '\n' then some ((("#[account").toList) ++ mid ++ ['\n'], rest2)
      else none
    | [] => none
  else none

/-- All expansions of the starred annotation group at a position, from
zero repetitions upward, each with the text it captures and the remaining
input.  The regex engine tries the largest repetition count first, so
callers consult this list in reverse. -/
def annotStates : Nat → List Char → List (List Char × List Char)
  | 0, l => [([], l)]
  | fuel + 1, l =>
    match annotRep l with
    | none => [([], l)]
    | some (g, rest) =>
      ([], l) :: (annotStates fuel rest).map (fun s => (g ++ s.1, s.2))

/-- The part of the `_count_accounts_for_instruction` pattern after the
annotation group: `\s*NAME\s*(?:\{[^}]*\}|\s*=)`.  Whitespace skipping is
forced maximal because a word character follows; the alternation succeeds
on a braced block with a closing brace, or on an equals sign. -/
def matchNameSuffix (name : List Char) (l : List Char) : Bool :=
  let l1 := l.dropWhile pyWs
  if name.isPrefixOf l1 then
    match (l1.drop name.length).dropWhile pyWs with
    | c :: r =>
      if c = lbrace then
        match r.dropWhile (fun x => x != rbrace) with
        | [] => false
        | _ :: _ => true
      else c == '='
    | [] => false
  else false

/-- Attempt the full `_count_accounts_for_instruction` pattern at one
position, trying larger annotation expansions first as the greedy star
does; returns the captured annotation group on success. -/
def tryMatchAnnots (name : List Char) (l : List Char) : Option (List Char) :=
  ((annotStates (l.length + 1) l).reverse.findSome? (fun s =>
    if matchNameSuffix name s.2 then some s.1 else none))

/-- The `re.search` of `_count_accounts_for_instruction`: scan start
positions left to right and return the first successful match's
annotation group. -/
def searchAnnots (name : List Char) : List Char → Option (List Char)
  | [] => tryMatchAnnots name []
  | l@(_ :: t) =>
    match tryMatchAnnots name l with
    | some g => some g
    | none => searchAnnots name t

/-- Count occurrences of the literal `#\[account\(` inside the captured
annotation group, as `re.findall` does (the marker cannot overlap itself). -/
def countMarker : List Char → Nat
  | [] => 0
  | l@(_ :: t) => (if (("#[account(").toList).isPrefixOf l then 1 else 0) + countMarker t

/-- `TransactionSizeAnalyzer._count_accounts_for_instruction`: search for
the annotation-group-plus-variant pattern; on failure raise (`none`), on
success count the markers in the captured group and apply the floor of 3. -/
def count_accounts_for_instruction (content name : String) : Option Nat :=
  (searchAnnots name.toList content.toList).map (fun g => max (countMarker g) 3)

/-- The `re.search` of `_parse_instruction_args` for
`NAME\s*\{([^}]*)\}`: first position where the variant name is followed by
optional whitespace, an opening brace, and a closing brace later; returns
the text between the braces. -/
def findArgsBody (name : List Char) : List Char → Option (List Char)
  | [] => none
  | l@(_ :: t) =>
    if name.isPrefixOf l then
      match (l.drop name.length).dropWhile pyWs with
      | c :: r2 =>
        if c = lbrace then
          match r2.dropWhile (fun x => x != rbrace) with
          | [] => findArgsBody name t
          | _ :: _ => some (r2.takeWhile (fun x => x != rbrace))
        else findArgsBody name t
      | [] => findArgsBody name t
    else findArgsBody name t

/-- One match of the field pattern `(\w+):\s*([^,\n]+)` at a position: a
word run, a colon, maximal whitespace, then a nonempty run up to a comma
or newline.  The stored type is stripped, as the source strips
`group(2)`. -/
def fieldMatchAt (l : List Char) : Option ((String × String) × List Char) :=
  let nm := l.takeWhile wordChar
  if nm.isEmpty then none
  else
    match l.drop nm.length with
    | c :: r1 =>
      if c = ':' then
        let r2 := r1.dropWhile pyWs
        let v := r2.takeWhile (fun x => x != ',' && x != '\n')
        if v.isEmpty then none
        else some ((String.mk nm, String.mk (pyStrip v)), r2.drop v.length)
      else none
    | [] => none

/-- The `re.finditer` loop of `_parse_instruction_args`: scan left to
right, collecting non-overlapping field matches into the argument dict. -/
def fieldsLoop : Nat → List Char → List (String × String) → List (String × String)
  | 0, _, acc => acc
  | _ + 1, [], acc => acc
  | fuel + 1, l@(_ :: t), acc =>
    match fieldMatchAt l with
    | some (kv, rest) => fieldsLoop fuel rest (insertUpd acc kv.1 kv.2)
    | none => fieldsLoop fuel t acc

/-- `TransactionSizeAnalyzer._parse_instruction_args`: an empty mapping
when the braced field list is absent. -/
def parse_instruction_args (content name : String) : List (String × String) :=
  match findArgsBody name.toList content.toList with
  | none => []
  | some body => fieldsLoop (body.length + 1) body []

/-- The literal head of the enum declaration searched for by
`_extract_instructions`. -/
def enumHeadChars : List Char := ("pub enum CommerceProgramInstruction").toList

/-- The balanced-brace scan of `_extract_instructions`: collect characters
after the opening brace until its matching closing brace, or to the end of
input when unbalanced (the source then uses `len(content)` as the end). -/
def braceScan : Nat → List Char → List Char
  | _, [] => []
  | depth, c :: rest =>
    if c = lbrace then c :: braceScan (depth + 1) rest
    else if c = rbrace then
      (if depth = 0 then [] else c :: braceScan (depth - 1) rest)
    else c :: braceScan depth rest

/-- Locate `pub enum CommerceProgramInstruction\s*\{` and return the enum
body text. -/
def findEnumBody : List Char → Option (List Char)
  | [] => none
  | l@(_ :: t) =>
    if enumHeadChars.isPrefixOf l then
      match (l.drop enumHeadChars.length).dropWhile pyWs with
      | c :: r => if c = lbrace then some (braceScan 0 r) else findEnumBody t
      | [] => findEnumBody t
    else findEnumBody t

/-- The tail `\s*=\s*(\d+)` of the instruction pattern: whitespace, the
equals sign, whitespace, then a nonempty digit run giving the
discriminator. -/
def contEq (l : List Char) : Option (Nat × List Char) :=
  match l.dropWhile pyWs with
  | c :: r1 =>
    if c = '=' then
      let r2 := r1.dropWhile pyWs
      let ds := r2.takeWhile Char.isDigit
      if ds.isEmpty then none else some (digitsToNat ds, r2.drop ds.length)
    else none
  | [] => none

/-- One match of the instruction pattern
`(\w+)\s*(?:\{[^}]*\})?\s*=\s*(\d+)` at a position: a word run, then
optionally a braced block (whose failure cannot be repaired by dropping
it, since the next character would then be the brace, not an equals
sign), then the discriminator tail. -/
def instrMatchAt (l : List Char) : Option (String × Nat × List Char) :=
  let nm := l.takeWhile wordChar
  if nm.isEmpty then none
  else
    let r1 := l.drop nm.length
    match r1.dropWhile pyWs with
    | c :: r2 =>
      if c = lbrace then
        match r2.dropWhile (fun x => x != rbrace) with
        | [] => none
        | _ :: r3 =>
          match contEq r3 with
          | some (d, rest) => some (String.mk nm, d, rest)
          | none => none
      else
        match contEq r1 with
        | some (d, rest) => some (String.mk nm, d, rest)
        | none => none
    | [] =>
      match contEq r1 with
      | some (d, rest) => some (String.mk nm, d, rest)
      | none => none

/-- The `re.findall` loop over the enum body: scan left to right,
collecting non-overlapping instruction matches. -/
def findallInstr : Nat → List Char → List (String × Nat)
  | 0, _ => []
  | _ + 1, [] => []
  | fuel + 1, l@(_ :: t) =>
    match instrMatchAt l with
    | some (nm, d, rest) => (nm, d) :: findallInstr fuel rest
    | none => findallInstr fuel t

/-- `TransactionSizeAnalyzer._extract_instructions`: locate the enum body,
collect variant matches, skip the internal `EmitEvent` variant, and for
each retained variant count its accounts (which can raise, modelled by
`none`) and parse its argument list. -/
def extract_instructions (content : String) :
    Option (List (String × Nat × List (String × String))) :=
  match findEnumBody content.toList with
  | none => some []
  | some body =>
    ((findallInstr (body.length + 1) body).filter
        (fun p => p.1 != ("EmitEvent"))).mapM (fun p =>
      (count_accounts_for_instruction content p.1).map
        (fun ac => (p.1, ac, parse_instruction_args content p.1)))

/-- `TransactionSizeAnalyzer._parse_instruction_sizes` applied to already
read schema text: build the operation-to-size dict, failing (`none`) when
extraction or any size computation raises, or when no instruction was
parsed. -/
def parse_instruction_sizes (content : String) : Option (List (String × Nat)) :=
  match extract_instructions content with
  | none => none
  | some instrs =>
    match instrs.foldlM (fun acc p =>
        (calculate_instruction_size p.2.1 p.2.2).map (fun s => insertUpd acc p.1 s)) [] with
    | none => none
    | some sizes => if sizes.isEmpty then none else some sizes

/-- `TransactionSizeAnalyzer.get_transaction_size` for a string key:
`none` models the `KeyError` for an operation missing from the table. -/
def get_transaction_size (sizes : List (String × Nat)) (operation : String) : Option Nat :=
  (sizes.find? (fun p => p.1 == operation)).map (fun p => p.2)

/-! ## JSON values and `json.loads` -/

/-- JSON values as Python's `json.loads` produces them (numbers restricted
to integers: the profiling protocol's `cu_consumed` is an integer, and
fractional or exponent numerals are treated as unparsable by this model). -/
inductive Json where
  | null : Json
  | bool (b : Bool) : Json
  | num (n : Int) : Json
  | str (s : String) : Json
  | arr (a : List Json) : Json
  | obj (o : List (String × Json)) : Json

/-- JSON inter-token whitespace. -/
def jsonWs (c : Char) : Bool :=
  c == ' ' || c == '\t' || c == '\n' || c == '\r'

/-- Hexadecimal digit value. -/
def hexVal (c : Char) : Option Nat :=
  if c.isDigit then some (c.toNat - 48)
  else if 97 ≤ c.toNat && c.toNat ≤ 102 then some (c.toNat - 87)
  else if 65 ≤ c.toNat && c.toNat ≤ 70 then some (c.toNat - 55)
  else none

/-- JSON string body parser, after the opening quote: standard escapes,
`\u` with four hex digits, and a strict-mode rejection of raw control
characters.  Returns the decoded characters and the rest of the input. -/
def parseJStrAux : Nat → List Char → List Char → Option (List Char × List Char)
  | 0, _, _ => none
  | _ + 1, [], _ => none
  | fuel + 1, c :: rest, acc =>
    if c = '"' then some (acc.reverse, rest)
    else if c = '\\' then
      match rest with
      | [] => none
      | e :: rest2 =>
        if e = '"' then parseJStrAux fuel rest2 ('"' :: acc)
        else if e = '\\' then parseJStrAux fuel rest2 ('\\' :: acc)
        else if e = '/' then parseJStrAux fuel rest2 ('/' :: acc)
        else if e = 'b' then parseJStrAux fuel rest2 ('\x08' :: acc)
        else if e = 'f' then parseJStrAux fuel rest2 ('\x0c' :: acc)
        else if e = 'n' then parseJStrAux fuel rest2 ('\n' :: acc)
        else if e = 'r' then parseJStrAux fuel rest2 ('\r' :: acc)
        else if e = 't' then parseJStrAux fuel rest2 ('\t' :: acc)
        else if e = 'u' then
          match rest2 with
          | h1 :: h2 :: h3 :: h4 :: rest3 =>
            match hexVal h1, hexVal h2, hexVal h3, hexVal h4 with
            | some a, some b, some c2, some d =>
              parseJStrAux fuel rest3 (Char.ofNat (((a * 16 + b) * 16 + c2) * 16 + d) :: acc)
            | _, _, _, _ => none
          | _ => none
        else none
    else if c.toNat < 32 then none
    else parseJStrAux fuel rest (c :: acc)

/-- JSON integer numeral: optional minus, digits without a redundant
leading zero, and no fractional or exponent part. -/
def parseJNum (l : List Char) : Option (Int × List Char) :=
  let negSplit : Bool × List Char :=
    match l with
    | c :: r => if c = '-' then (true, r) else (false, l)
    | [] => (false, l)
  let neg := negSplit.1
  let l1 := negSplit.2
  let ds := l1.takeWhile Char.isDigit
  if ds.isEmpty then none
  else if ds.length > 1 && ds.headD ' ' = '0' then none
  else
    let value : Int := if neg then -(digitsToNat ds : Int) else (digitsToNat ds : Int)
    match l1.drop ds.length with
    | c :: _ =>
      if c = '.' || c = 'e' || c = 'E' then none
      else some (value, l1.drop ds.length)
    | [] => some (value, [])

mutual

/-- JSON value parser (fuel-indexed recursive descent). -/
def parseJVal : Nat → List Char → Option (Json × List Char)
  | 0, _ => none
  | fuel + 1, l =>
    match l.dropWhile jsonWs with
    | [] => none
    | c :: r =>
      if c = lbrace then
        match r.dropWhile jsonWs with
        | c2 :: r2 =>
          if c2 = rbrace then some (Json.obj [], r2)
          else parseJMembers fuel (c2 :: r2) []
        | [] => none
      else if c = '[' then
        match r.dropWhile jsonWs with
        | c2 :: r2 =>
          if c2 = ']' then some (Json.arr [], r2)
          else parseJElems fuel (c2 :: r2) []
        | [] => none
      else if c = '"' then
        match parseJStrAux (r.length + 1) r [] with
        | some (cs, rest) => some (Json.str (String.mk cs), rest)
        | none => none
      else if c = 't' then
        if (("rue").toList).isPrefixOf r then some (Json.bool true, r.drop 3) else none
      else if c = 'f' then
        if (("alse").toList).isPrefixOf r then some (Json.bool false, r.drop 4) else none
      else if c = 'n' then
        if (("ull").toList).isPrefixOf r then some (Json.null, r.drop 3) else none
      else
        match parseJNum (c :: r) with
        | some (n, rest) => some (Json.num n, rest)
        | none => none

/-- JSON object member list parser.  Duplicate keys are all kept in
order; lookups take the last occurrence, matching Python dict updates. -/
def parseJMembers : Nat → List Char → List (String × Json) → Option (Json × List Char)
  | 0, _, _ => none
  | fuel + 1, l, acc =>
    match l.dropWhile jsonWs with
    | c :: r =>
      if c = '"' then
        match parseJStrAux (r.length + 1) r [] with
        | some (k, r2) =>
          match r2.dropWhile jsonWs with
          | c2 :: r3 =>
            if c2 = ':' then
              match parseJVal fuel r3 with
              | some (v, r4) =>
                match r4.dropWhile jsonWs with
                | c3 :: r5 =>
                  if c3 = ',' then parseJMembers fuel r5 ((String.mk k, v) :: acc)
                  else if c3 = rbrace then
                    some (Json.obj ((String.mk k, v) :: acc).reverse, r5)
                  else none
                | [] => none
              | none => none
            else none
          | [] => none
        | none => none
      else none
    | [] => none

/-- JSON array element list parser. -/
def parseJElems : Nat → List Char → List Json → Option (Json × List Char)
  | 0, _, _ => none
  | fuel + 1, l, acc =>
    match parseJVal fuel l with
    | some (v, r) =>
      match r.dropWhile jsonWs with
      | c :: r2 =>
        if c = ',' then parseJElems fuel r2 (v :: acc)
        else if c = ']' then some (Json.arr (v :: acc).reverse, r2)
        else none
      | [] => none
    | none => none

end

/-- Python `json.loads`: parse one value and require only whitespace to
follow. -/
def jsonLoads (l : List Char) : Option Json :=
  match parseJVal (2 * l.length + 2) l with
  | some (v, rest) => if (rest.dropWhile jsonWs).isEmpty then some v else none
  | none => none

/-- Python `dict.get(k)` on a decoded JSON object: the last binding of a
duplicated key wins, as later inserts overwrite.  `none` on non-objects
or missing keys. -/
def Json.get (j : Json) (k : String) : Option Json :=
  match j with
  | Json.obj o => (o.reverse.find? (fun p => p.1 == k)).map (fun p => p.2)
  | _ => none

/-! ## Profiling collector (`ProfilingCollector`) -/

/-- The `ProfilingData` dataclass.  The operation is a string (a
non-string operation value can never pass the size-table lookup, so only
strings are ever stored); `cu_consumed` is stored exactly as decoded. -/
structure ProfilingData where
  operation : String
  cu_consumed : Json
  transaction_size : Nat

/-- The uncaught exceptions of `_parse_profiling_output`: the `KeyError`
for a missing JSON field and the `KeyError` of `get_transaction_size` for
an operation missing from the size table. -/
inductive ParseError where
  | unknownOperation (op : Json) : ParseError
  | missingField (field : String) : ParseError

/-- Accumulated collector state: the records gathered so far and the
number of skipped-line warnings printed. -/
structure CollectState where
  records : List ProfilingData
  warnings : Nat

/-- The fixed tagged-JSON profiling line marker tested with
`line.startswith('{"type":"profiling"')`. -/
def profilingTag : List Char := ("\x7b\"type\":\"profiling\"").toList

/-- Processing of one output line by `_parse_profiling_output`: strip;
ignore lines without the tag; count a warning for tagged lines that fail
to decode; silently skip decoded lines whose `type` is not the string
`profiling`; otherwise require the operation field, resolve it in the
size table (failure is the fatal lookup error), require the
`cu_consumed` field, and append a record. -/
def processLine (sizes : List (String × Nat)) (st : CollectState) (rawLine : List Char) :
    Except ParseError CollectState :=
  if profilingTag.isPrefixOf (pyStrip rawLine) then
    match jsonLoads (pyStrip rawLine) with
    | none => Except.ok { st with warnings := st.warnings + 1 }
    | some data =>
      match data.get ("type") with
      | some (Json.str t) =>
        if t = ("profiling") then
          match data.get ("operation") with
          | none => Except.error (ParseError.missingField ("operation"))
          | some opv =>
            match opv with
            | Json.str opName =>
              match get_transaction_size sizes opName with
              | none => Except.error (ParseError.unknownOperation opv)
              | some tx =>
                match data.get ("cu_consumed") with
                | none => Except.error (ParseError.missingField ("cu_consumed"))
                | some cu =>
                  Except.ok { st with records := st.records ++ [⟨opName, cu, tx⟩] }
            | _ => Except.error (ParseError.unknownOperation opv)
        else Except.ok st
      | _ => Except.ok st
  else Except.ok st

/-- The line loop of `_parse_profiling_output`: an uncaught exception
aborts the whole parse, yielding no result list. -/
def processLines (sizes : List (String × Nat)) :
    CollectState → List (List Char) → Except ParseError CollectState
  | st, [] => Except.ok st
  | st, line :: rest =>
    match processLine sizes st line with
    | Except.ok st2 => processLines sizes st2 rest
    | Except.error e => Except.error e

/-- `ProfilingCollector._parse_profiling_output`: split the captured
output at newlines and process each line, returning the record list and
the number of skipped-line warnings. -/
def parse_profiling_output (sizes : List (String × Nat)) (output : String) :
    Except ParseError (List ProfilingData × Nat) :=
  match processLines sizes ⟨[], 0⟩ (splitOnNl output.toList) with
  | Except.ok st => Except.ok (st.records, st.warnings)
  | Except.error e => Except.error e

/-! ## Statistical aggregator (`StatisticalAnalyzer`) -/

/-- The `OperationStats` dataclass.  Python float means are modelled as
exact rationals. -/
structure OperationStats where
  operation : String
  total_calls : Nat
  total_cu : Int
  mean_cu : Rat
  min_cu : Int
  max_cu : Int
  total_tx_size : Nat
  mean_tx_size : Rat
  min_tx_size : Nat
  max_tx_size : Nat

/-- Numeric reading of a stored `cu_consumed` value, as Python arithmetic
accepts it (booleans are integers in Python); `none` models the
`TypeError` that summing any other value would raise. -/
def pyNum : Json → Option Int
  | Json.num n => some n
  | Json.bool b => some (if b then 1 else 0)
  | _ => none

/-- Insert one record into the per-operation groups.  The source keeps
two `defaultdict(list)`s (compute units and transaction sizes) that are
always updated together under the same key; they are modelled as one
association list carrying both value lists. -/
def addToGroups : List (String × List Json × List Nat) → ProfilingData →
    List (String × List Json × List Nat)
  | [], d => [(d.operation, [d.cu_consumed], [d.transaction_size])]
  | (k, cs, ts) :: rest, d =>
    if k = d.operation then (k, cs ++ [d.cu_consumed], ts ++ [d.transaction_size]) :: rest
    else (k, cs, ts) :: addToGroups rest d

/-- The grouping pass of `analyze_operations`. -/
def groupByOperation (data : List ProfilingData) : List (String × List Json × List Nat) :=
  data.foldl addToGroups []

/-- The compute-unit value list recorded for an operation name. -/
def cuOf (gs : List (String × List Json × List Nat)) (op : String) : List Json :=
  match gs.find? (fun g => g.1 == op) with
  | some g => g.2.1
  | none => []

/-- Statistics of one group, as the `OperationStats(...)` construction
computes them.  Groups built by the grouping pass are never empty; an
empty group would make Python's `min` raise, modelled by `none`. -/
def statsOf (op : String) (cus : List Json) (txs : List Nat) : Option OperationStats :=
  match cus.mapM pyNum with
  | none => none
  | some vals =>
    match vals, txs with
    | v :: vs, t :: ts =>
      some {
        operation := op
        total_calls := cus.length
        total_cu := (v :: vs).sum
        mean_cu := (((v :: vs).sum : Int) : Rat) / (cus.length : Rat)
        min_cu := vs.foldl min v
        max_cu := vs.foldl max v
        total_tx_size := (t :: ts).sum
        mean_tx_size := ((t :: ts).sum : Rat) / (txs.length : Rat)
        min_tx_size := ts.foldl min t
        max_tx_size := ts.foldl max t }
    | _, _ => none

/-- `StatisticalAnalyzer.analyze_operations`: group by operation name and
compute per-group statistics, keyed by operation in first-seen order. -/
def analyze_operations (data : List ProfilingData) :
    Option (List (String × OperationStats)) :=
  (groupByOperation data).mapM (fun g => (statsOf g.1 g.2.1 g.2.2).map (fun s => (g.1, s)))

/-! ## Main driver -/

/-- Outcome of a run of `main`: the process exit code and whether the
report file was written. -/
structure MainResult where
  exitCode : Nat
  reportWritten : Bool

/-- The control flow of `main` after collection: exit 1 before any report
when no measurements were collected, exit 1 before any report when no
statistics were derived, otherwise write the report and exit 0.  `none`
models an uncaught exception from the analyzer. -/
def mainRun (profiling_data : List ProfilingData) : Option MainResult :=
  if profiling_data.isEmpty then some ⟨1, false⟩
  else
    match analyze_operations profiling_data with
    | none => none
    | some stats => if stats.isEmpty then some ⟨1, false⟩ else some ⟨0, true⟩

/-! ## Concrete scenario inputs -/

/-- Scenario A schema text: instruction `Deposit = 1` preceded by two
account annotation markers, with one inline `u64` field. -/
def schemaA : String :=
  "pub enum CommerceProgramInstruction \x7b\n#[account(0, writable)]\n#[account(1)]\nDeposit \x7b amount: u64, \x7d = 1,\n\x7d\n"

/-- A schema text whose `Deposit` variant has no account annotation
markers at all. -/
def schemaNoMarkers : String :=
  "pub enum CommerceProgramInstruction \x7b\n    Deposit = 1,\n\x7d\n"

/-- The size table built from scenario A. -/
def depositTable : List (String × Nat) := [(("Deposit"), 212)]

/-- Scenario B: the valid profiling line. -/
def scenarioBLine1 : String :=
  "\x7b\"type\":\"profiling\",\"operation\":\"Deposit\",\"cu_consumed\":1500\x7d"

/-- Scenario B: a line with the profiling tag that is not valid JSON. -/
def scenarioBLine2 : String := "\x7b\"type\":\"profiling\", oops"

/-- Scenario B: the captured output stream. -/
def scenarioBOutput : String := scenarioBLine1 ++ "\n" ++ scenarioBLine2

/-- A line that decodes to a valid profiling object with a known
operation but does not begin with the exact tag characters. -/
def reorderedLine : String :=
  "\x7b \"cu_consumed\": 1500, \"operation\": \"Deposit\", \"type\": \"profiling\" \x7d"

/-- A tagged, valid profiling line whose operation is not in the size
table. -/
def unknownOpLine : String :=
  "\x7b\"type\":\"profiling\",\"operation\":\"Ghost\",\"cu_consumed\":7\x7d"

/-- Sample records for the aggregation witness. -/
def sampleRecords : List ProfilingData :=
  [⟨("Pay"), Json.num 100, 10⟩, ⟨("Claim"), Json.num 300, 20⟩, ⟨("Pay"), Json.num 50, 10⟩]

/-! ## Helper lemmas -/

/-- Stripping never lengthens a string. -/
theorem pyStrip_length_le (l : List Char) : (pyStrip l).length ≤ l.length := by
  unfold pyStrip
  calc ((l.dropWhile pyWs).reverse.dropWhile pyWs).reverse.length
      = ((l.dropWhile pyWs).reverse.dropWhile pyWs).length :=
        List.length_reverse _
    _ ≤ (l.dropWhile pyWs).reverse.length := (List.dropWhile_sublist _).length_le
    _ = (l.dropWhile pyWs).length := List.length_reverse _
    _ ≤ l.length := (List.dropWhile_sublist _).length_le

/-- Stripping is the identity on text with non-blank first and last
characters. -/
theorem pyStrip_sandwich (a b : Char) (mid : List Char)
    (ha : pyWs a = false) (hb : pyWs b = false) :
    pyStrip (a :: (mid ++ [b])) = a :: (mid ++ [b]) := by
  unfold pyStrip
  rw [List.dropWhile_cons_of_neg (by simp [ha])]
  rw [← List.cons_append, List.reverse_append]
  simp only [List.reverse_cons, List.reverse_nil, List.nil_append, List.singleton_append]
  rw [List.dropWhile_cons_of_neg (by simp [hb])]
  simp [List.reverse_cons, List.reverse_reverse]

/-- A list is a Boolean prefix of itself followed by anything. -/
theorem isPrefixOf_append_self (p r : List Char) : p.isPrefixOf (p ++ r) = true :=
  List.isPrefixOf_iff_prefix.mpr (List.prefix_append p r)

/-- A decimal digit is not whitespace. -/
theorem digit_not_pyWs {c : Char} (h : c.isDigit = true) : pyWs c = false := by
  by_contra hw
  have hw2 : pyWs c = true := by
    cases hpw : pyWs c
    · exact absurd hpw hw
    · rfl
  unfold pyWs at hw2
  simp only [Bool.or_eq_true, beq_iff_eq] at hw2
  rcases hw2 with ((((rfl | rfl) | rfl) | rfl) | rfl) | rfl <;> exact absurd h (by decide)

/-- Successful array-form parses read their element group as the
characters before the first semicolon after the bracket. -/
theorem parseArrayForm_elem {s e : List Char} {n : Nat}
    (h : parseArrayForm s = some (e, n)) :
    ∃ c rest, s = c :: rest ∧ e = rest.takeWhile (fun x => x != ';') := by
  cases s with
  | nil => simp [parseArrayForm] at h
  | cons c rest =>
    refine ⟨c, rest, rfl, ?_⟩
    simp only [parseArrayForm] at h
    repeat' split at h
    all_goals simp_all

/-- The element group of a successful array-form parse is shorter than
the descriptor. -/
theorem parseArrayForm_length {s e : List Char} {n : Nat}
    (h : parseArrayForm s = some (e, n)) : e.length < s.length := by
  obtain ⟨c, rest, hs, he⟩ := parseArrayForm_elem h
  subst hs
  subst he
  have hle : (rest.takeWhile (fun x => x != ';')).length ≤ rest.length :=
    (List.takeWhile_sublist _).length_le
  simp only [List.length_cons]
  omega

/-- The result of the width computation does not depend on the fuel, once
the fuel exceeds the descriptor length. -/
theorem calc_fuel_irrel : ∀ (f1 f2 : Nat) (l : List Char),
    l.length < f1 → l.length < f2 →
    calc_type_size_fuel f1 l = calc_type_size_fuel f2 l := by
  intro f1
  induction f1 with
  | zero => intro f2 l h1 h2; omega
  | succ k ih =>
    intro f2 l h1 h2
    cases f2 with
    | zero => omega
    | succ m =>
      have hsl : (pyStrip l).length ≤ l.length := pyStrip_length_le l
      simp only [calc_type_size_fuel]
      by_cases hOpt :
          ((("Option<").toList.isPrefixOf (pyStrip l) && endsWithChar (pyStrip l) '>') = true)
      · rw [if_pos hOpt, if_pos hOpt]
        have h7 : 7 ≤ (pyStrip l).length := by
          have := (List.isPrefixOf_iff_prefix.mp ((Bool.and_eq_true _ _).mp hOpt).1).length_le
          simpa using this
        have hlen : (((pyStrip l).drop 7).dropLast).length < (pyStrip l).length := by
          simp [List.length_dropLast, List.length_drop]
          omega
        exact congrArg _ (ih m _ (by omega) (by omega))
      · rw [if_neg hOpt, if_neg hOpt]
        by_cases hVec :
            ((("Vec<").toList.isPrefixOf (pyStrip l) && endsWithChar (pyStrip l) '>') = true)
        · rw [if_pos hVec, if_pos hVec]
          have h4 : 4 ≤ (pyStrip l).length := by
            have := (List.isPrefixOf_iff_prefix.mp ((Bool.and_eq_true _ _).mp hVec).1).length_le
            simpa using this
          have hlen : (((pyStrip l).drop 4).dropLast).length < (pyStrip l).length := by
            simp [List.length_dropLast, List.length_drop]
            omega
          exact congrArg _ (ih m _ (by omega) (by omega))
        · rw [if_neg hVec, if_neg hVec]
          cases hArr : parseArrayForm (pyStrip l) with
          | none => rfl
          | some p =>
            obtain ⟨elem, n⟩ := p
            have hlen : elem.length < (pyStrip l).length := parseArrayForm_length hArr
            show Option.map (fun w => n * w) (calc_type_size_fuel k elem) =
              Option.map (fun w => n * w) (calc_type_size_fuel m elem)
            rw [ih m elem (by omega) (by omega)]

/-! ## C1: the estimate never exceeds the capped maximum -/

/-- C1: for every account count and every argument mapping whose types
all resolve, `_calculate_instruction_size` returns at most
`MAX_TRANSACTION_SIZE` minus the 50-byte margin, that is at most 1182,
even when the raw envelope-plus-data sum exceeds that ceiling. -/
theorem instruction_size_le_cap (account_count : Nat) (args : List (String × String))
    (r : Nat) (h : calculate_instruction_size account_count args = some r) : r ≤ 1182 := by
  unfold calculate_instruction_size at h
  rcases Option.map_eq_some'.mp h with ⟨ws, _, hr⟩
  subst hr
  exact Nat.le_trans (Nat.min_le_right _ _) (by norm_num [MAX_TRANSACTION_SIZE])

/-- C1 witness: with 40 accounts and no arguments the raw envelope sum is
1553, yet the returned estimate is the 1182 cap, which satisfies the
bound. -/
theorem instruction_size_le_cap_witness :
    calculate_instruction_size 40 [] = some 1182 ∧ 1182 ≤ 1182 :=
  ⟨by decide, instruction_size_le_cap 40 [] 1182 (by decide)⟩

/-! ## C7: zero measurements exit with failure and no report -/

/-- C7: whenever the collector returns zero measurements, `main` exits
with status 1 and writes no report file. -/
theorem zero_measurements_exit :
    mainRun [] = some { exitCode := 1, reportWritten := false } := rfl

/-! ## C2: compound type width equations -/

/-- One unfolding step of the fuel-indexed width computation. -/
theorem calc_step (fuel : Nat) (l : List Char) :
    calc_type_size_fuel (fuel + 1) l =
      if (("Option<").toList.isPrefixOf (pyStrip l) && endsWithChar (pyStrip l) '>') then
        (calc_type_size_fuel fuel (((pyStrip l).drop 7).dropLast)).map
          (fun w => OPTION_DISCRIMINATOR_SIZE + w)
      else if (("Vec<").toList.isPrefixOf (pyStrip l) && endsWithChar (pyStrip l) '>') then
        (calc_type_size_fuel fuel (((pyStrip l).drop 4).dropLast)).map
          (fun w => VEC_LENGTH_SIZE + 4 * w)
      else
        match parseArrayForm (pyStrip l) with
        | some (elem, n) => (calc_type_size_fuel fuel elem).map (fun w => n * w)
        | none =>
          match type_mappings.find? (fun p => p.1.toList == pyStrip l) with
          | some p => some p.2
          | none =>
            (type_mappings.find? (fun p =>
              containsSub (lowerList p.1.toList) (lowerList (pyStrip l)))).map
              (fun p => p.2) := rfl

/-- A descriptor with a resolving width is nonempty. -/
theorem resolving_ne_nil {T : String} {w : Nat}
    (h : calculate_type_size T = some w) : T.toList ≠ [] := by
  intro he
  unfold calculate_type_size at h
  rw [he] at h
  rw [show calc_type_size_fuel (([] : List Char).length + 1) ([] : List Char) = none
    from rfl] at h
  exact Option.noConfusion h

/-- Optional-wrapper widths: wrapping any resolving descriptor adds the
one-byte discriminator. -/
theorem wrapper_option_eq (T : String) (w : Nat) (h : calculate_type_size T = some w) :
    calculate_type_size (("Option<") ++ T ++ (">")) = some (1 + w) := by
  unfold calculate_type_size at h ⊢
  rw [show ((("Option<") ++ T ++ (">")).toList)
      = ("Option<").toList ++ (T.toList ++ ['>']) from rfl]
  have hstrip : pyStrip (("Option<").toList ++ (T.toList ++ ['>'])) =
      ("Option<").toList ++ (T.toList ++ ['>']) := by
    have hs := pyStrip_sandwich 'O' '>' ((("ption<").toList ++ T.toList))
      (by decide) (by decide)
    exact hs
  rw [calc_step]
  rw [hstrip]
  have hpre : (("Option<").toList.isPrefixOf
      ((("Option<").toList ++ (T.toList ++ ['>'])))) = true :=
    isPrefixOf_append_self _ _
  have hend : endsWithChar (("Option<").toList ++ (T.toList ++ ['>'])) '>' = true := by
    unfold endsWithChar
    rw [show (("Option<").toList ++ (T.toList ++ ['>']))
        = ((("Option<").toList ++ T.toList) ++ ['>']) from (List.append_assoc _ _ _).symm]
    rw [List.getLast?_concat]
    rfl
  rw [if_pos (by rw [hpre, hend]; rfl)]
  rw [show ((("Option<").toList ++ (T.toList ++ ['>'])).drop 7)
      = T.toList ++ ['>'] from List.drop_left' (by rfl)]
  rw [List.dropLast_concat]
  rw [calc_fuel_irrel _ (T.toList.length + 1) T.toList
    (by simp [List.length_append, show (("Option<").toList.length) = 7 from rfl]; omega)
    (Nat.lt_succ_self _)]
  rw [h]
  rfl

/-- List-wrapper widths: wrapping any resolving descriptor adds the
four-byte length prefix and multiplies by the assumed element count 4. -/
theorem wrapper_vec_eq (T : String) (w : Nat) (h : calculate_type_size T = some w) :
    calculate_type_size (("Vec<") ++ T ++ (">")) = some (4 + 4 * w) := by
  unfold calculate_type_size at h ⊢
  rw [show ((("Vec<") ++ T ++ (">")).toList)
      = ("Vec<").toList ++ (T.toList ++ ['>']) from rfl]
  have hstrip : pyStrip (("Vec<").toList ++ (T.toList ++ ['>'])) =
      ("Vec<").toList ++ (T.toList ++ ['>']) :=
    pyStrip_sandwich 'V' '>' ((("ec<").toList ++ T.toList)) (by decide) (by decide)
  rw [calc_step]
  rw [hstrip]
  rw [if_neg (show ¬((("Option<").toList.isPrefixOf
        ((("Vec<").toList ++ (T.toList ++ ['>']))) &&
        endsWithChar ((("Vec<").toList ++ (T.toList ++ ['>']))) '>') = true)
    from Bool.false_ne_true)]
  have hpre : (("Vec<").toList.isPrefixOf
      ((("Vec<").toList ++ (T.toList ++ ['>'])))) = true :=
    isPrefixOf_append_self _ _
  have hend : endsWithChar (("Vec<").toList ++ (T.toList ++ ['>'])) '>' = true := by
    unfold endsWithChar
    rw [show (("Vec<").toList ++ (T.toList ++ ['>']))
        = ((("Vec<").toList ++ T.toList) ++ ['>']) from (List.append_assoc _ _ _).symm]
    rw [List.getLast?_concat]
    rfl
  rw [if_pos (by rw [hpre, hend]; rfl)]
  rw [show ((("Vec<").toList ++ (T.toList ++ ['>'])).drop 4)
      = T.toList ++ ['>'] from List.drop_left' (by rfl)]
  rw [List.dropLast_concat]
  rw [calc_fuel_irrel _ (T.toList.length + 1) T.toList
    (by simp [List.length_append, show (("Vec<").toList.length) = 4 from rfl]; omega)
    (Nat.lt_succ_self _)]
  rw [h]
  rfl

/-- Evaluation of the array-form parse on a well-formed array descriptor
whose element contains no semicolon. -/
theorem parseArrayForm_concat (A ds : List Char) (hA : A ≠ [])
    (hsemi : ';' ∈ A → False) (hne : ds ≠ []) (hdig : ∀ c ∈ ds, c.isDigit = true) :
    parseArrayForm ('[' :: (A ++ (';' :: ' ' :: (ds ++ [']'])))) =
      some (A, digitsToNat ds) := by
  have hAp : ∀ x ∈ A, (x != ';') = true := by
    intro x hx
    by_cases hxe : x = ';'
    · exact absurd (hxe ▸ hx) hsemi
    · simp [hxe]
  obtain ⟨d, ds2, rfl⟩ : ∃ d ds2, ds = d :: ds2 := by
    cases ds with
    | nil => exact absurd rfl hne
    | cons a b => exact ⟨a, b, rfl⟩
  have hd : Char.isDigit d = true := hdig d (List.mem_cons_self d ds2)
  have hdig2 : ∀ c ∈ ds2, Char.isDigit c = true := by
    intro c hc
    exact hdig c (List.mem_cons_of_mem d hc)
  have hdw : pyWs d = false := digit_not_pyWs hd
  have hAe : A.isEmpty = false := by
    cases A with
    | nil => exact absurd rfl hA
    | cons x xs => rfl
  simp only [List.cons_append]
  have htake1 : (A ++ (';' :: ' ' :: (d :: (ds2 ++ [']'])))).takeWhile
      (fun x => x != ';') = A := by
    rw [List.takeWhile_append_of_pos hAp]
    rw [List.takeWhile_cons_of_neg (by simp)]
    exact List.append_nil A
  have hdrop1 : (A ++ (';' :: ' ' :: (d :: (ds2 ++ [']'])))).dropWhile
      (fun x => x != ';') = ';' :: ' ' :: (d :: (ds2 ++ [']'])) := by
    rw [List.dropWhile_append_of_pos hAp]
    rw [List.dropWhile_cons_of_neg (by simp)]
  have hwsdrop : (' ' :: (d :: (ds2 ++ [']']))).dropWhile pyWs
      = d :: (ds2 ++ [']']) := by
    rw [List.dropWhile_cons_of_pos (by decide)]
    rw [List.dropWhile_cons_of_neg (by simp [hdw])]
  have htake2 : (d :: (ds2 ++ [']'])).takeWhile Char.isDigit = d :: ds2 := by
    rw [List.takeWhile_cons_of_pos hd]
    rw [List.takeWhile_append_of_pos hdig2]
    rw [List.takeWhile_cons_of_neg (by decide)]
    rw [List.append_nil]
  have hdrop2 : (d :: (ds2 ++ [']'])).dropWhile Char.isDigit = [']'] := by
    rw [List.dropWhile_cons_of_pos hd]
    rw [List.dropWhile_append_of_pos hdig2]
    rw [List.dropWhile_cons_of_neg (by decide)]
  simp only [parseArrayForm, hdrop1, htake1, hwsdrop, htake2, hdrop2, hAe,
    List.isEmpty_cons, if_true, if_false]
  simp

/-- Fixed-array widths: for an element descriptor without semicolons, the
width is the element count times the element width. -/
theorem wrapper_array_eq (T : String) (w : Nat) (N : Nat) (ds : List Char)
    (h : calculate_type_size T = some w) (hsemi : ';' ∈ T.toList → False)
    (hne : ds ≠ []) (hdig : ∀ c ∈ ds, c.isDigit = true)
    (hval : digitsToNat ds = N) :
    calculate_type_size (("[") ++ T ++ ("; ") ++ String.mk ds ++ ("]")) = some (N * w) := by
  have hA : T.toList ≠ [] := resolving_ne_nil (by exact h)
  unfold calculate_type_size at h ⊢
  have hL : ((("[") ++ T ++ ("; ") ++ String.mk ds ++ ("]")).toList)
      = '[' :: (T.toList ++ (';' :: ' ' :: (ds ++ [']']))) := by
    rw [show ((("[") ++ T ++ ("; ") ++ String.mk ds ++ ("]")).toList)
        = ((('[' :: T.toList) ++ [';', ' ']) ++ ds) ++ [']'] from rfl]
    simp [List.append_assoc]
  rw [hL]
  rw [calc_step]
  have hshape : T.toList ++ (';' :: ' ' :: (ds ++ [']']))
      = (T.toList ++ (';' :: ' ' :: ds)) ++ [']'] := by simp
  have hstrip : pyStrip ('[' :: (T.toList ++ (';' :: ' ' :: (ds ++ [']'])))) =
      '[' :: (T.toList ++ (';' :: ' ' :: (ds ++ [']']))) := by
    rw [hshape]
    exact pyStrip_sandwich '[' ']' (T.toList ++ (';' :: ' ' :: ds)) (by decide) (by decide)
  rw [hstrip]
  rw [if_neg (show ¬((("Option<").toList.isPrefixOf
        (('[' :: (T.toList ++ (';' :: ' ' :: (ds ++ [']']))))) &&
        endsWithChar (('[' :: (T.toList ++ (';' :: ' ' :: (ds ++ [']']))))) '>') = true)
    from Bool.false_ne_true)]
  rw [if_neg (show ¬((("Vec<").toList.isPrefixOf
        (('[' :: (T.toList ++ (';' :: ' ' :: (ds ++ [']']))))) &&
        endsWithChar (('[' :: (T.toList ++ (';' :: ' ' :: (ds ++ [']']))))) '>') = true)
    from Bool.false_ne_true)]
  rw [parseArrayForm_concat T.toList ds hA hsemi hne hdig]
  show (calc_type_size_fuel
      (('[' :: (T.toList ++ (';' :: ' ' :: (ds ++ [']'])))).length) T.toList).map
      (fun x => digitsToNat ds * x) = some (N * w)
  rw [calc_fuel_irrel _ (T.toList.length + 1) T.toList
    (by simp [List.length_append, List.length_cons]; omega) (Nat.lt_succ_self _)]
  rw [h]
  simp [hval]

/-- C2 counterexample: the descriptor `[u8; 2]` resolves to width 2, yet
the nested array `[[u8; 2]; 3]` resolves to width 2 rather than
3 × 2 = 6: the `[^;]+` element group of `re.match(r'\[([^;]+);\s*(\d+)\]', ...)`
stops at the first semicolon, so the element is read as `[u8` (width 1
via the case-insensitive substring fallback on `u8`) with length 2. -/
theorem nested_array_width_cex :
    calculate_type_size ("[u8; 2]") = some 2 ∧
    calculate_type_size ("[[u8; 2]; 3]") = some 2 ∧ (2 : Nat) ≠ 3 * 2 :=
  ⟨by decide, by decide, by decide⟩

/-- C2 (amended): for every descriptor `T` whose width resolves,
`width(Option<T>) = 1 + width(T)` and `width(Vec<T>) = 4 + 4 × width(T)`
hold unconditionally (hence also for arbitrarily nested wrapping), and
`width([T; N]) = N × width(T)` holds for every `N ≥ 0` written as a
decimal digit string, provided `T` contains no semicolon (a nested-array
element, which contains a semicolon, is mis-parsed by the element group
of the array regex, as the counterexample shows). -/
theorem compound_type_widths (T : String) (w : Nat)
    (h : calculate_type_size T = some w) :
    calculate_type_size (("Option<") ++ T ++ (">")) = some (1 + w) ∧
    calculate_type_size (("Vec<") ++ T ++ (">")) = some (4 + 4 * w) ∧
    (∀ (N : Nat) (ds : List Char), (';' ∈ T.toList → False) → ds ≠ [] →
      (∀ c ∈ ds, c.isDigit = true) → digitsToNat ds = N →
      calculate_type_size (("[") ++ T ++ ("; ") ++ String.mk ds ++ ("]")) = some (N * w)) :=
  ⟨wrapper_option_eq T w h, wrapper_vec_eq T w h,
    fun N ds hsemi hne hdig hval => wrapper_array_eq T w N ds h hsemi hne hdig hval⟩

/-- C2 witness: the equations evaluated at the resolving descriptor
`u64` (width 8) and array length 5. -/
theorem compound_type_widths_witness :
    calculate_type_size (("Option<") ++ ("u64") ++ (">")) = some (1 + 8) ∧
    calculate_type_size (("Vec<") ++ ("u64") ++ (">")) = some (4 + 4 * 8) ∧
    calculate_type_size (("[") ++ ("u64") ++ ("; ") ++ String.mk ['5'] ++ ("]")) =
      some (5 * 8) := by
  have h : calculate_type_size ("u64") = some 8 := by decide
  have hw := compound_type_widths ("u64") 8 h
  exact ⟨hw.1, hw.2.1, hw.2.2 5 ['5'] (by decide) (by decide) (by decide) (by decide)⟩

/-! ## C9: deterministic type-width resolution order -/

/-- C9: resolution of `_calculate_type_size` is deterministic: an exact
key of the primitive table always resolves to its own width (no earlier
branch can capture a table key), and when no exact match exists (and no
wrapper or array form applies) the result is the width of the first
case-insensitive substring-matching key in the fixed table insertion
order `u8, u16, u32, u64, i8, i16, i32, i64, bool, Pubkey, pubkey,
FeeType, Status, PolicyData`, as `List.find?` over `type_mappings`
returns the first hit; being a pure function, the same descriptor always
yields the same width. -/
theorem type_size_resolution :
    (∀ p ∈ type_mappings, calculate_type_size p.1 = some p.2) ∧
    (∀ (s k : String) (w : Nat),
      pyStrip s.toList = s.toList →
      ((("Option<").toList.isPrefixOf s.toList && endsWithChar s.toList '>') = false) →
      ((("Vec<").toList.isPrefixOf s.toList && endsWithChar s.toList '>') = false) →
      parseArrayForm s.toList = none →
      type_mappings.find? (fun p => p.1.toList == s.toList) = none →
      type_mappings.find? (fun p =>
        containsSub (lowerList p.1.toList) (lowerList s.toList)) = some (k, w) →
      calculate_type_size s = some w) := by
  constructor
  · decide
  · intro s k w hstrip hopt hvec harr hexact hsub
    unfold calculate_type_size
    rw [calc_step, hstrip]
    rw [if_neg (by rw [hopt]; simp)]
    rw [if_neg (by rw [hvec]; simp)]
    rw [harr, hexact, hsub]
    rfl

/-- C9 witness: the exact key `u8` resolves to 1, and the namespaced
spelling `pinocchio::pubkey::Pubkey` resolves through the substring
fallback to the width 32 of the first matching key `Pubkey`. -/
theorem type_size_resolution_witness :
    calculate_type_size ("u8") = some 1 ∧
    calculate_type_size ("pinocchio::pubkey::Pubkey") = some 32 := by
  refine ⟨type_size_resolution.1 (("u8"), 1) (by decide), ?_⟩
  exact type_size_resolution.2 ("pinocchio::pubkey::Pubkey") ("Pubkey") 32
    (by decide) (by decide) (by decide) (by decide) (by decide) (by decide)

/-! ## C3: zero account-annotation markers -/

/-- C3 counterexample: `schemaNoMarkers` contains no `#[account(`
marker at all, yet `_count_accounts_for_instruction` returns the floor
count 3 for its `Deposit` variant instead of failing, and the extractor
reports the variant with account count 3: the pattern's annotation group
is starred (zero or more), so the variant line alone matches. -/
theorem no_marker_returns_floor_cex :
    countMarker schemaNoMarkers.toList = 0 ∧
    extract_instructions schemaNoMarkers
      = some [(("Deposit"), 3, ([] : List (String × String)))] ∧
    count_accounts_for_instruction schemaNoMarkers ("Deposit") = some 3 :=
  ⟨by decide, by decide, by decide⟩

/-- C3 (amended): when the search for the annotation-plus-variant pattern
succeeds with a captured group containing zero `#[account(` markers,
`_count_accounts_for_instruction` returns the floor count 3 rather than
failing; the descriptive error is raised only when the pattern itself
cannot be found for the variant name. -/
theorem no_marker_returns_floor (content name : String) (g : List Char)
    (hs : searchAnnots name.toList content.toList = some g)
    (h0 : countMarker g = 0) :
    count_accounts_for_instruction content name = some 3 := by
  unfold count_accounts_for_instruction
  rw [hs]
  simp [h0]

/-- C3 witness: the empty captured group of `schemaNoMarkers` has zero
markers, and the counting step returns 3. -/
theorem no_marker_returns_floor_witness :
    searchAnnots (("Deposit").toList) schemaNoMarkers.toList = some [] ∧
    count_accounts_for_instruction schemaNoMarkers ("Deposit") = some 3 :=
  ⟨by decide, no_marker_returns_floor schemaNoMarkers ("Deposit") [] (by decide) (by decide)⟩

/-! ## C4: unknown operation names are fatal -/

/-- Processing a concatenation of line lists processes the first part,
then continues from its state; an error aborts. -/
theorem processLines_append (sizes : List (String × Nat)) (st : CollectState)
    (l1 l2 : List (List Char)) :
    processLines sizes st (l1 ++ l2) =
      match processLines sizes st l1 with
      | Except.ok st2 => processLines sizes st2 l2
      | Except.error e => Except.error e := by
  induction l1 generalizing st with
  | nil => rfl
  | cons a t ih =>
    rw [List.cons_append]
    simp only [processLines]
    cases processLine sizes st a with
    | ok st2 => exact ih st2
    | error e => rfl

/-- C4: a line that carries the profiling tag, decodes as JSON with type
`profiling`, and names an operation absent from the size table makes the
whole parse raise the fatal lookup error identifying that operation: it
is not skipped, later lines are not reached, and no partial result list
is produced by `_parse_profiling_output`. -/
theorem unknown_op_is_fatal (sizes : List (String × Nat)) (pre post : List (List Char))
    (line : List Char) (st : CollectState) (j : Json) (op : String)
    (hpre : processLines sizes ⟨[], 0⟩ pre = Except.ok st)
    (htag : profilingTag.isPrefixOf (pyStrip line) = true)
    (hjson : jsonLoads (pyStrip line) = some j)
    (htype : Json.get j ("type") = some (Json.str ("profiling")))
    (hop : Json.get j ("operation") = some (Json.str op))
    (hmiss : get_transaction_size sizes op = none) :
    processLines sizes ⟨[], 0⟩ (pre ++ line :: post) =
      Except.error (ParseError.unknownOperation (Json.str op)) ∧
    (∀ output : String, splitOnNl output.toList = pre ++ line :: post →
      parse_profiling_output sizes output =
        Except.error (ParseError.unknownOperation (Json.str op))) := by
  have hline : ∀ st0 : CollectState, processLine sizes st0 line =
      Except.error (ParseError.unknownOperation (Json.str op)) := by
    intro st0
    simp [processLine, htag, hjson, htype, hop, hmiss]
  have hmain : processLines sizes ⟨[], 0⟩ (pre ++ line :: post) =
      Except.error (ParseError.unknownOperation (Json.str op)) := by
    rw [processLines_append, hpre]
    show processLines sizes st (line :: post) = _
    simp only [processLines]
    rw [hline st]
  refine ⟨hmain, ?_⟩
  intro output ho
  unfold parse_profiling_output
  rw [ho, hmain]

/-- C4 witness: with the scenario-A size table, an output consisting of
the single tagged line naming the unknown operation `Ghost` makes the
parse fail with the lookup error for `Ghost`. -/
theorem unknown_op_is_fatal_witness :
    parse_profiling_output depositTable unknownOpLine =
      Except.error (ParseError.unknownOperation (Json.str ("Ghost"))) := by
  have h := unknown_op_is_fatal depositTable [] [] unknownOpLine.toList ⟨[], 0⟩
    (Json.obj [(("type"), Json.str ("profiling")), (("operation"), Json.str ("Ghost")),
      (("cu_consumed"), Json.num 7)]) ("Ghost")
    (by rfl) (by rfl) (by rfl) (by rfl) (by rfl) (by rfl)
  exact h.2 unknownOpLine (by rfl)

/-! ## C10: lines without the exact tag are silently ignored -/

/-- C10: a line whose trimmed text is a valid JSON profiling object with
a known operation and a `cu_consumed` field, but which does not begin
with the exact tag characters, is silently ignored by the parse: it
yields no record and no warning, and removing it from the stream does
not change the parse at all. -/
theorem untagged_line_ignored (sizes : List (String × Nat)) (st : CollectState)
    (line : List Char) (j : Json) (op : String) (tx : Nat) (cu : Json)
    (pre post : List (List Char))
    (hjson : jsonLoads (pyStrip line) = some j)
    (htype : Json.get j ("type") = some (Json.str ("profiling")))
    (hop : Json.get j ("operation") = some (Json.str op))
    (hknown : get_transaction_size sizes op = some tx)
    (hcu : Json.get j ("cu_consumed") = some cu)
    (huntag : profilingTag.isPrefixOf (pyStrip line) = false) :
    processLine sizes st line = Except.ok st ∧
    processLines sizes st (pre ++ line :: post) = processLines sizes st (pre ++ post) := by
  have hline : ∀ st0 : CollectState, processLine sizes st0 line = Except.ok st0 := by
    intro st0
    simp [processLine, huntag]
  refine ⟨hline st, ?_⟩
  rw [processLines_append, processLines_append]
  cases processLines sizes st pre with
  | error e => rfl
  | ok st2 =>
    show processLines sizes st2 (line :: post) = processLines sizes st2 post
    simp only [processLines]
    rw [hline st2]

/-- C10 witness: the re-ordered, whitespace-spaced line decodes to a
valid profiling object naming the known operation `Deposit`, yet its
processing leaves the collector state unchanged. -/
theorem untagged_line_ignored_witness :
    processLine depositTable ⟨[], 0⟩ reorderedLine.toList = Except.ok ⟨[], 0⟩ :=
  (untagged_line_ignored depositTable ⟨[], 0⟩ reorderedLine.toList
    (Json.obj [(("cu_consumed"), Json.num 1500), (("operation"), Json.str ("Deposit")),
      (("type"), Json.str ("profiling"))]) ("Deposit") 212 (Json.num 1500) [] []
    (by rfl) (by rfl) (by rfl) (by rfl) (by rfl) (by rfl)).1

/-! ## C6: scenario B, one record and one warning -/

/-- C6: on an output stream with exactly one valid tagged profiling line
for the known operation `Deposit` and one tagged line that is not valid
JSON, the parse returns exactly one record (operation `Deposit`,
1500 compute units, the table's 212-byte size) and exactly one
skipped-line warning, continuing past the malformed line. -/
theorem scenario_b_one_record_one_warning :
    parse_profiling_output depositTable scenarioBOutput =
      Except.ok ([⟨("Deposit"), Json.num 1500, 212⟩], 1) := rfl

/-! ## C5: scenario A, extraction and estimation -/

/-- C5: on the scenario-A schema text (variant `Deposit = 1`, two
`#[account(...)]` markers, inline field `amount: u64`), the extractor
reports account count 3 (the floor applied to the counted 2) and the
argument mapping `amount ↦ u64`; the estimator deterministically returns
212, which is at most 1182; and the resulting size table maps `Deposit`
to 212. -/
theorem scenario_a_extraction_and_estimate :
    extract_instructions schemaA = some [(("Deposit"), 3, [(("amount"), ("u64"))])] ∧
    count_accounts_for_instruction schemaA ("Deposit") = some 3 ∧
    parse_instruction_args schemaA ("Deposit") = [(("amount"), ("u64"))] ∧
    calculate_instruction_size 3 [(("amount"), ("u64"))] = some 212 ∧
    parse_instruction_sizes schemaA = some [(("Deposit"), 212)] ∧
    212 ≤ 1182 :=
  ⟨by decide, by decide, by decide, by decide, by decide, by decide⟩

/-! ## C8: grouping partitions the input exactly -/

/-- The compute-unit list of an absent operation is empty. -/
theorem cuOf_nil (op : String) : cuOf [] op = [] := rfl

/-- One step of the group lookup. -/
theorem cuOf_cons (k : String) (cs : List Json) (ts : List Nat)
    (rest : List (String × List Json × List Nat)) (op : String) :
    cuOf ((k, cs, ts) :: rest) op = if k = op then cs else cuOf rest op := by
  by_cases h : k = op
  · have hb : (k == op) = true := by simp [h]
    simp [cuOf, List.find?, hb, h]
  · have hb : (k == op) = false := by simp [h]
    simp [cuOf, List.find?, hb, h]

/-- Inserting a record appends its compute units to exactly the list of
its own operation. -/
theorem addToGroups_cuOf (gs : List (String × List Json × List Nat)) (d : ProfilingData)
    (op : String) :
    cuOf (addToGroups gs d) op =
      cuOf gs op ++ (if d.operation = op then [d.cu_consumed] else []) := by
  induction gs with
  | nil =>
    by_cases h : d.operation = op <;> simp [addToGroups, cuOf_cons, cuOf_nil, h]
  | cons g rest ih =>
    obtain ⟨k, cs, ts⟩ := g
    simp only [addToGroups]
    by_cases hk : k = d.operation
    · rw [if_pos hk, cuOf_cons, cuOf_cons]
      by_cases hop : k = op
      · simp [hop, show d.operation = op from hk ▸ hop]
      · have hdop : d.operation ≠ op := fun he => hop (hk.trans he)
        simp [hop, hdop]
    · rw [if_neg hk, cuOf_cons, cuOf_cons]
      by_cases hop : k = op
      · have hdop : d.operation ≠ op := fun he => hk (hop.trans he.symm)
        simp [hop, hdop]
      · simp [hop, ih]

/-- The grouping fold sends each operation to exactly the compute units
of its own records, in input order. -/
theorem foldl_cuOf (data : List ProfilingData)
    (gs : List (String × List Json × List Nat)) (op : String) :
    cuOf (data.foldl addToGroups gs) op =
      cuOf gs op ++ (data.filter (fun d => d.operation == op)).map
        (fun d => d.cu_consumed) := by
  induction data generalizing gs with
  | nil => simp
  | cons d ds ih =>
    rw [List.foldl_cons, ih, addToGroups_cuOf]
    by_cases h : d.operation = op
    · simp [List.filter_cons, h, List.append_assoc]
    · simp [List.filter_cons, h]

/-- Inserting a record grows the total group size by exactly one. -/
theorem addToGroups_size (gs : List (String × List Json × List Nat)) (d : ProfilingData) :
    ((addToGroups gs d).map (fun g => g.2.1.length)).sum =
      ((gs.map (fun g => g.2.1.length)).sum) + 1 := by
  induction gs with
  | nil => simp [addToGroups]
  | cons g rest ih =>
    obtain ⟨k, cs, ts⟩ := g
    by_cases hk : k = d.operation
    · simp [addToGroups, hk]
      omega
    · simp [addToGroups, hk, ih]
      omega

/-- The grouping fold preserves the total number of records. -/
theorem foldl_size (data : List ProfilingData)
    (gs : List (String × List Json × List Nat)) :
    (((data.foldl addToGroups gs).map (fun g => g.2.1.length)).sum) =
      ((gs.map (fun g => g.2.1.length)).sum) + data.length := by
  induction data generalizing gs with
  | nil => simp
  | cons d ds ih =>
    rw [List.foldl_cons, ih, addToGroups_size]
    simp [List.length_cons]
    omega

/-- The call count of a group's statistics is the group's size. -/
theorem statsOf_total_calls {op : String} {cus : List Json} {txs : List Nat}
    {s : OperationStats} (h : statsOf op cus txs = some s) :
    s.total_calls = cus.length := by
  unfold statsOf at h
  repeat' split at h
  all_goals first
  | exact Option.noConfusion h
  | simp [← Option.some.inj h]

/-- The per-group statistics pass maps sizes through unchanged. -/
theorem mapM_total_calls (gs : List (String × List Json × List Nat))
    (stats : List (String × OperationStats))
    (h : gs.mapM (fun g => (statsOf g.1 g.2.1 g.2.2).map (fun s => (g.1, s))) = some stats) :
    stats.map (fun p => p.2.total_calls) = gs.map (fun g => g.2.1.length) := by
  induction gs generalizing stats with
  | nil =>
    rw [show (([] : List (String × List Json × List Nat)).mapM
        (fun g => (statsOf g.1 g.2.1 g.2.2).map (fun s => (g.1, s)))) = some [] from rfl] at h
    rw [← Option.some.inj h]
    rfl
  | cons g rest ih =>
    rw [List.mapM_cons] at h
    cases hfg : (statsOf g.1 g.2.1 g.2.2).map (fun s => (g.1, s)) with
    | none => rw [hfg] at h; exact Option.noConfusion h
    | some b =>
      rw [hfg] at h
      cases hrest : rest.mapM (fun g => (statsOf g.1 g.2.1 g.2.2).map (fun s => (g.1, s))) with
      | none => rw [hrest] at h; exact Option.noConfusion h
      | some bs =>
        rw [hrest] at h
        have hst : stats = b :: bs := (Option.some.inj h).symm
        subst hst
        obtain ⟨s0, hs0, hb⟩ := Option.map_eq_some'.mp hfg
        simp only [List.map_cons]
        rw [← hb]
        show s0.total_calls :: bs.map (fun p => p.2.total_calls) = _
        rw [statsOf_total_calls hs0]
        rw [ih bs hrest]

/-- C8: `analyze_operations` groups records by operation name so that the
input is partitioned exactly: the sum of `total_calls` over all
statistics equals the input length, and every operation's group carries
exactly the compute units of that operation's input records, in order
(so every record is counted in exactly one group). -/
theorem grouping_partitions (data : List ProfilingData)
    (stats : List (String × OperationStats))
    (h : analyze_operations data = some stats) :
    (stats.map (fun p => p.2.total_calls)).sum = data.length ∧
    (∀ op : String, cuOf (groupByOperation data) op =
      (data.filter (fun d => d.operation == op)).map (fun d => d.cu_consumed)) := by
  constructor
  · unfold analyze_operations at h
    rw [mapM_total_calls _ _ h]
    unfold groupByOperation
    calc ((data.foldl addToGroups []).map (fun g => g.2.1.length)).sum
        = ((([] : List (String × List Json × List Nat)).map
            (fun g => g.2.1.length)).sum) + data.length := foldl_size data []
      _ = data.length := by simp
  · intro op
    unfold groupByOperation
    rw [foldl_cuOf data [] op, cuOf_nil]
    rfl

/-- C8 witness: on three sample records (two for `Pay`, one for `Claim`)
the aggregator succeeds, the call counts sum to the input length 3, and
the `Pay` group carries exactly the `Pay` records' compute units. -/
theorem grouping_partitions_witness :
    ∃ stats, analyze_operations sampleRecords = some stats ∧
      (stats.map (fun p => p.2.total_calls)).sum = sampleRecords.length ∧
      cuOf (groupByOperation sampleRecords) ("Pay") =
        (sampleRecords.filter (fun d => d.operation == ("Pay"))).map
          (fun d => d.cu_consumed) := by
  have hsome : (analyze_operations sampleRecords).isSome = true := by decide
  obtain ⟨stats, hs⟩ := Option.isSome_iff_exists.mp hsome
  have h := grouping_partitions sampleRecords stats hs
  exact ⟨stats, hs, h.1, h.2 ("Pay")⟩
